import Mathlib

/-!
# Verification of the svgbit spatial-transcriptomics core

Shallow embedding of the svgbit/SVGLib repository (CPenglab/svgbit) and
proofs about its stages: dataset construction, k-nearest-neighbor weights,
local-Moran hotspot detection, density aggregation and gene clustering.

Numeric entries of the Python DataFrames (64-bit floats) are modelled as
rationals; a missing value (NaN) is modelled as `none` in `Option ℚ`.
External libraries (libpysal, esda, scipy) are not part of the repository;
where a stage delegates to them, the delegated computation is taken as an
explicit function argument while the control flow of the repository code
around it is embedded faithfully.
-/

namespace Svgbit

/-! ## Density aggregation

Embedding of `_hotspot_AI` from `SVGLib/core/density.py` (the `density`
module used by `STDataset.acquire_density`).  Spots are identified with
their positions `0, ..., n-1` in the hotspot DataFrame index.  A per-gene
call receives the hotspot column `hot`, the weight column `w`
(`weight_df[gene]`, which the pipeline builds from p-values and which is
therefore nonnegative) and the spot-by-spot 0/1 matrix `knnM` obtained
from the pysal weights by `pysal_to_pandas` (the transposed full matrix,
so the code reads the neighbors of spot `i` from column `i`). -/

/-- The hotspot spots of a gene: positions whose hotspot entry is nonzero.
Mirrors `hotspot_df[hotspot_df[gene] != 0]`. -/
def hotspotSpots (hot : List ℕ) : List ℕ :=
  (List.range hot.length).filter (fun i => hot.getD i 0 != 0)

/-- The rows `j` whose entry in column `i` of the converted knn matrix is
exactly 1.  Mirrors `hi_wnn_df[hi_wnn_df[i] == 1].index`. -/
def knnCoorsOf (knnM : List (List ℕ)) (n i : ℕ) : List ℕ :=
  (List.range n).filter (fun j => (knnM.getD j []).getD i 0 == 1)

/-- The denominator of the density index of spot `i`:
`weight_df[gene][knn_coors].sum()`. -/
def diDenom (hot : List ℕ) (w : List ℚ) (knnM : List (List ℕ)) (i : ℕ) : ℚ :=
  ((knnCoorsOf knnM hot.length i).map (fun j => w.getD j 0)).sum

/-- The raw density index of hotspot spot `i`:
`(weight_df[gene][inter_spots] / weight_df[gene][knn_coors].sum()).sum()`.
`inter_spots` is the intersection of the hotspot set with the neighbor
set of `i`.  Division in `ℚ` returns 0 on a zero denominator; this agrees
with the pandas computation on the nonnegative-weight inputs the pipeline
supplies, where a zero denominator forces every numerator weight in the
intersection to be zero as well (elementwise `0 / 0` is NaN, which the
pandas skipna sum drops, yielding 0). -/
def diRaw (hot : List ℕ) (w : List ℚ) (knnM : List (List ℕ)) (i : ℕ) : ℚ :=
  (((knnCoorsOf knnM hot.length i).filter (fun j => hot.getD j 0 != 0)).map
    (fun j => w.getD j 0 / diDenom hot w knnM i)).sum

/-- The finalized density-index entry of spot `s`: the raw value on
hotspot spots and 0 elsewhere.  Mirrors
`pd.Series(hs).reindex(index=hotspot_df.index).fillna(0)`. -/
def diAt (hot : List ℕ) (w : List ℚ) (knnM : List (List ℕ)) (s : ℕ) : ℚ :=
  if hot.getD s 0 != 0 then diRaw hot w knnM s else 0

/-- The aggregation index of a gene: 0 when the hotspot set is empty,
otherwise the sum of the raw density indexes over the hotspot spots
divided by their number.  Mirrors the `n_hotspots == 0` early return and
`di_sum / n_hotspots`. -/
def aiVal (hot : List ℕ) (w : List ℚ) (knnM : List (List ℕ)) : ℚ :=
  if (hotspotSpots hot).length = 0 then 0
  else (((hotspotSpots hot).map (diRaw hot w knnM)).sum) / ((hotspotSpots hot).length : ℚ)

/-- The full density-index column over all spots, in index order. -/
def diColumn (hot : List ℕ) (w : List ℚ) (knnM : List (List ℕ)) : List ℚ :=
  (List.range hot.length).map (diAt hot w knnM)

section DensityProofs

private lemma getD_nonneg {w : List ℚ} (hw : ∀ x ∈ w, 0 ≤ x) (j : ℕ) :
    0 ≤ w.getD j 0 := by
  by_cases h : j < w.length
  · rw [List.getD_eq_getElem w 0 h]
    exact hw _ (List.getElem_mem h)
  · rw [List.getD_eq_default w 0 (Nat.le_of_not_lt h)]

private lemma sum_map_div (l : List ℚ) (d : ℚ) :
    (l.map (fun x => x / d)).sum = l.sum / d := by
  induction l with
  | nil => simp
  | cons a t ih => simp [ih, add_div]

private lemma diDenom_nonneg (hot : List ℕ) (w : List ℚ) (knnM : List (List ℕ))
    (hw : ∀ x ∈ w, 0 ≤ x) (i : ℕ) : 0 ≤ diDenom hot w knnM i := by
  unfold diDenom
  exact List.sum_nonneg fun y hy => by
    obtain ⟨j', _, rfl⟩ := List.mem_map.1 hy
    exact getD_nonneg hw j'

private lemma diRaw_nonneg (hot : List ℕ) (w : List ℚ) (knnM : List (List ℕ))
    (hw : ∀ x ∈ w, 0 ≤ x) (i : ℕ) : 0 ≤ diRaw hot w knnM i := by
  unfold diRaw
  apply List.sum_nonneg
  intro x hx
  obtain ⟨j, _, rfl⟩ := List.mem_map.1 hx
  exact div_nonneg (getD_nonneg hw j) (diDenom_nonneg hot w knnM hw i)

private lemma diRaw_le_one (hot : List ℕ) (w : List ℚ) (knnM : List (List ℕ))
    (hw : ∀ x ∈ w, 0 ≤ x) (i : ℕ) : diRaw hot w knnM i ≤ 1 := by
  unfold diRaw
  have hsub : List.Sublist
      (((knnCoorsOf knnM hot.length i).filter (fun j => hot.getD j 0 != 0)).map
        (fun j => w.getD j 0 / diDenom hot w knnM i))
      ((knnCoorsOf knnM hot.length i).map
        (fun j => w.getD j 0 / diDenom hot w knnM i)) :=
    (List.filter_sublist (knnCoorsOf knnM hot.length i)).map _
  have hle := hsub.sum_le_sum (by
    intro a ha
    obtain ⟨j, _, rfl⟩ := List.mem_map.1 ha
    exact div_nonneg (getD_nonneg hw j) (diDenom_nonneg hot w knnM hw i))
  refine le_trans hle ?_
  have htot : ((knnCoorsOf knnM hot.length i).map
      (fun j => w.getD j 0 / diDenom hot w knnM i)).sum
      = diDenom hot w knnM i / diDenom hot w knnM i := by
    have hcomp : (knnCoorsOf knnM hot.length i).map
        (fun j => w.getD j 0 / diDenom hot w knnM i)
        = ((knnCoorsOf knnM hot.length i).map (fun j => w.getD j 0)).map
          (fun x => x / diDenom hot w knnM i) := by
      rw [List.map_map]
      rfl
    rw [hcomp, sum_map_div]
    rfl
  rw [htot]
  rcases eq_or_ne (diDenom hot w knnM i) 0 with h0 | h0
  · rw [h0]
    norm_num
  · rw [div_self h0]

/-- C1.  For every hotspot column, nonnegative weight column (the
pipeline passes either p-values or their negated logarithms, both
nonnegative) and neighbor matrix, the density index of every spot lies in
`[0, 1]`, and it is 0 on every spot whose hotspot entry is 0. -/
theorem density_di_bounds (hot : List ℕ) (w : List ℚ) (knnM : List (List ℕ))
    (hw : ∀ x ∈ w, 0 ≤ x) (s : ℕ) :
    0 ≤ diAt hot w knnM s ∧ diAt hot w knnM s ≤ 1 ∧
      (hot.getD s 0 = 0 → diAt hot w knnM s = 0) := by
  refine ⟨?_, ?_, ?_⟩
  · unfold diAt
    split
    · exact diRaw_nonneg hot w knnM hw s
    · exact le_refl 0
  · unfold diAt
    split
    · exact diRaw_le_one hot w knnM hw s
    · norm_num
  · intro h0
    have hc : (hot.getD s 0 != 0) = false := by
      rw [h0]
      rfl
    unfold diAt
    rw [hc]
    rfl

/-- Witness for `density_di_bounds` at a concrete input. -/
theorem density_di_bounds_witness :
    0 ≤ diAt [1, 0] [1/2, 1/3] [[0, 1], [1, 0]] 0 ∧
      diAt [1, 0] [1/2, 1/3] [[0, 1], [1, 0]] 0 ≤ 1 ∧
      ([1, 0].getD 0 0 = 0 → diAt [1, 0] [1/2, 1/3] [[0, 1], [1, 0]] 0 = 0) :=
  density_di_bounds [1, 0] [1/2, 1/3] [[0, 1], [1, 0]]
    (by intro x hx; fin_cases hx <;> norm_num) 0

/-- C2.  The aggregation index equals the mean of the density-index
entries over the hotspot spots, lies in `[0, 1]`, and is 0 whenever the
hotspot column is all-zero. -/
theorem density_ai_spec (hot : List ℕ) (w : List ℚ) (knnM : List (List ℕ))
    (hw : ∀ x ∈ w, 0 ≤ x) :
    aiVal hot w knnM
        = ((hotspotSpots hot).map (diAt hot w knnM)).sum / ((hotspotSpots hot).length : ℚ) ∧
      0 ≤ aiVal hot w knnM ∧ aiVal hot w knnM ≤ 1 ∧
      ((∀ x ∈ hot, x = 0) → aiVal hot w knnM = 0) := by
  have hmap : (hotspotSpots hot).map (diAt hot w knnM)
      = (hotspotSpots hot).map (diRaw hot w knnM) := by
    apply List.map_congr_left
    intro i hi
    have hi' : i ∈ (List.range hot.length).filter (fun i => hot.getD i 0 != 0) := hi
    have hne : (hot.getD i 0 != 0) = true := (List.mem_filter.1 hi').2
    unfold diAt
    rw [hne]
    rfl
  refine ⟨?_, ?_, ?_, ?_⟩
  · unfold aiVal
    split
    · rename_i h
      rw [hmap, List.length_eq_zero.1 h]
      simp
    · rw [hmap]
  · unfold aiVal
    split
    · exact le_refl 0
    · apply div_nonneg
      · exact List.sum_nonneg fun y hy => by
          obtain ⟨i, _, rfl⟩ := List.mem_map.1 hy
          exact diRaw_nonneg hot w knnM hw i
      · exact_mod_cast Nat.zero_le _
  · unfold aiVal
    split
    · norm_num
    · rename_i h
      have hpos : (0 : ℚ) < ((hotspotSpots hot).length : ℚ) := by
        exact_mod_cast Nat.pos_of_ne_zero h
      rw [div_le_one hpos]
      have hb := List.sum_le_card_nsmul ((hotspotSpots hot).map (diRaw hot w knnM)) 1
        (by intro x hx
            obtain ⟨i, _, rfl⟩ := List.mem_map.1 hx
            exact diRaw_le_one hot w knnM hw i)
      simpa [List.length_map, nsmul_eq_mul] using hb
  · intro hz
    have hempty : hotspotSpots hot = [] := by
      unfold hotspotSpots
      apply List.filter_eq_nil_iff.2
      intro i hi
      have hlt : i < hot.length := List.mem_range.1 hi
      have hzi : hot.getD i 0 = 0 := by
        rw [List.getD_eq_getElem hot 0 hlt]
        exact hz _ (List.getElem_mem hlt)
      rw [hzi]
      simp
    unfold aiVal
    rw [hempty]
    simp

/-- Witness for `density_ai_spec` at a concrete input. -/
theorem density_ai_spec_witness :
    aiVal [1, 0] [1/2, 1/3] [[0, 1], [1, 0]]
        = ((hotspotSpots [1, 0]).map (diAt [1, 0] [1/2, 1/3] [[0, 1], [1, 0]])).sum
          / ((hotspotSpots [1, 0]).length : ℚ) ∧
      0 ≤ aiVal [1, 0] [1/2, 1/3] [[0, 1], [1, 0]] ∧
      aiVal [1, 0] [1/2, 1/3] [[0, 1], [1, 0]] ≤ 1 ∧
      ((∀ x ∈ [1, 0], x = 0) → aiVal [1, 0] [1/2, 1/3] [[0, 1], [1, 0]] = 0) :=
  density_ai_spec [1, 0] [1/2, 1/3] [[0, 1], [1, 0]]
    (by intro x hx; fin_cases hx <;> norm_num)

end DensityProofs

/-! ## Hotspot detection

Embedding of `local_moran` and `_local_moran` from
`svgbit/core/moran.py`.  The call into the external statistic
`esda.moran.Moran_Local` is abstracted as a per-gene kernel returning the
simulated p-values `p_sim`, the quadrant codes `q` and the permutation
expectations `EI_sim` (or an error when the computation raises); the
repository control flow around it — the hotspot rule, the degenerate-gene
guard and the pool fan-out with its concat merge — is embedded
directly. -/

/-- A Python value that is either a pandas Series (a column of values) or
a plain scalar.  After `_local_moran` executes the degenerate-gene guard
`hotspot = 0`, the name `hotspot` holds the scalar int 0 instead of a
Series; this type records that distinction. -/
inductive PdObj where
  | ser (vals : List ℕ)
  | scalar (v : ℕ)
deriving Repr, DecidableEq

/-- The degenerate-gene guard of svgbit `_local_moran`
(`if (hotspot == 1).all(): hotspot = 0`): when every entry of the
per-gene hotspot Series is 1, the variable is rebound to the scalar
int 0. -/
def guardHotspot (pre : List ℕ) : PdObj :=
  if pre.all (fun x => x == 1) then PdObj.scalar 0 else PdObj.ser pre

/-- The degenerate-gene guard of SVGLib `_local_moran`
(`if (gene_moran_df[gene] == 1).all(): gene_moran_df[gene] = 0`): the
scalar 0 is assigned INTO the DataFrame column, broadcasting to an
all-zero column of the same length. -/
def guardHotspotSVGLib (pre : List ℕ) : List ℕ :=
  if pre.all (fun x => x == 1) then List.replicate pre.length 0 else pre

/-- Error-propagating map over a list, the semantics of both
`multiprocessing.Pool.map` (a raise in any worker propagates out of the
map) and elementwise pandas merges. -/
def exceptMapM {α β : Type} (f : α → Except String β) : List α → Except String (List β)
  | [] => Except.ok []
  | a :: t =>
    match f a with
    | Except.error e => Except.error e
    | Except.ok b =>
      match exceptMapM f t with
      | Except.error e => Except.error e
      | Except.ok bs => Except.ok (b :: bs)

/-- `pd.concat(columns, axis=1)` over the per-gene hotspot results:
succeeds on Series and raises TypeError on a scalar member. -/
def concatSeries (cols : List PdObj) : Except String (List (List ℕ)) :=
  exceptMapM (fun c => match c with
    | PdObj.ser v => Except.ok v
    | PdObj.scalar _ => Except.error "cannot concatenate object of type int") cols

/-- C3.  On a gene whose pre-guard hotspot column is all ones, svgbit
rebinds the per-gene result to the scalar 0, so the merge of the
detection stage raises instead of producing an all-zero column, while the
SVGLib variant of the same function performs the intended column reset
(an all-zero column of the same length, one entry per spot). -/
theorem moran_guard_scalar_bug :
    guardHotspot [1, 1, 1] = PdObj.scalar 0 ∧
      (concatSeries [guardHotspot [1, 1, 1]]).isOk = false ∧
      guardHotspotSVGLib [1, 1, 1] = [0, 0, 0] := by
  refine ⟨rfl, rfl, rfl⟩

/-- The hotspot rule of `_local_moran`:
`1 * ((gene_lisa.p_sim < 0.05) & (gene_lisa.q == 1))`, followed by the
degenerate-gene guard. -/
def localMoranHotspot (p : List ℚ) (q : List ℕ) : PdObj :=
  guardHotspot ((p.zip q).map (fun pq => if pq.1 < 1/20 ∧ pq.2 = 1 then 1 else 0))

/-- The per-gene body of svgbit `_local_moran`, with the external
`esda.moran.Moran_Local` call abstracted as `kernel`: on success it
returns the (possibly guard-degraded) hotspot object together with the
`EI_sim` and `p_sim` Series; an exception in the statistic propagates. -/
def localMoranGene (kernel : ℕ → Except String (List ℚ × List ℕ × List ℚ))
    (gene : ℕ) : Except String (PdObj × List ℚ × List ℚ) :=
  match kernel gene with
  | Except.error e => Except.error e
  | Except.ok (p, q, ei) => Except.ok (localMoranHotspot p q, ei, p)

/-- The stage driver `local_moran`: `pool.map` of the per-gene body over
the gene columns (an exception in any worker propagates out of the map),
then `pd.concat` merges per-gene results in gene order. -/
def localMoranStage (kernel : ℕ → Except String (List ℚ × List ℕ × List ℚ))
    (genes : List ℕ) :
    Except String (List (List ℕ) × List (List ℚ) × List (List ℚ)) :=
  match exceptMapM (localMoranGene kernel) genes with
  | Except.error e => Except.error e
  | Except.ok results =>
    match concatSeries (results.map (fun r => r.1)) with
    | Except.error e => Except.error e
    | Except.ok hot =>
      Except.ok (hot, results.map (fun r => r.2.1), results.map (fun r => r.2.2))

section MoranProofs

private lemma exceptMapM_error_of_mem {α β : Type} (f : α → Except String β)
    (l : List α) (a : α) (ha : a ∈ l) (hf : (f a).isOk = false) :
    ∃ e, exceptMapM f l = Except.error e := by
  induction l with
  | nil => cases ha
  | cons b t ih =>
    rcases List.mem_cons.1 ha with rfl | hmem
    · cases hfb : f a with
      | error e =>
        exact ⟨e, by simp [exceptMapM, hfb]⟩
      | ok v => rw [hfb] at hf; cases hf
    · cases hfb : f b with
      | error e =>
        exact ⟨e, by simp [exceptMapM, hfb]⟩
      | ok v =>
        obtain ⟨e, he⟩ := ih hmem
        exact ⟨e, by simp [exceptMapM, hfb, he]⟩

/-- C6 (amended).  If the statistic computation raises for any single
gene, the whole hotspot-detection stage errors out: there is no per-gene
recovery that would let the other genes complete and carry a degraded
result for the failing one. -/
theorem local_moran_aborts_on_gene_failure
    (kernel : ℕ → Except String (List ℚ × List ℕ × List ℚ))
    (genes : List ℕ) (g : ℕ) (hg : g ∈ genes)
    (hk : (kernel g).isOk = false) :
    (localMoranStage kernel genes).isOk = false := by
  have hgene : (localMoranGene kernel g).isOk = false := by
    cases hke : kernel g with
    | error e => simp [localMoranGene, hke, Except.isOk, Except.toBool]
    | ok v => rw [hke] at hk; cases hk
  obtain ⟨e, he⟩ := exceptMapM_error_of_mem (localMoranGene kernel) genes g hg hgene
  simp [localMoranStage, he, Except.isOk, Except.toBool]

/-- A kernel standing for a gene list in which gene 1 has a zero-variance
expression vector that makes the external statistic raise, while genes 0
and 2 compute normally. -/
def demoMoranKernel : ℕ → Except String (List ℚ × List ℕ × List ℚ)
  | 1 => Except.error "ZeroDivisionError in Moran_Local: zero variance"
  | _ => Except.ok ([1, 1], [4, 4], [0, 0])

/-- C6 counterexample.  With gene 1 failing and genes 0 and 2 healthy,
the embedded detection stage returns an error: it does not complete for
the other genes, and no all-zero/NaN result is produced for gene 1 —
contradicting the claim as stated. -/
theorem local_moran_failure_counterexample :
    (demoMoranKernel 0).isOk = true ∧ (demoMoranKernel 2).isOk = true ∧
      (demoMoranKernel 1).isOk = false ∧
      (localMoranStage demoMoranKernel [0, 1, 2]).isOk = false := by
  refine ⟨rfl, rfl, rfl, rfl⟩

/-- Witness for `local_moran_aborts_on_gene_failure` at the concrete
kernel and gene list of the counterexample scenario. -/
theorem local_moran_aborts_witness :
    (localMoranStage demoMoranKernel [0, 1, 2]).isOk = false :=
  local_moran_aborts_on_gene_failure demoMoranKernel [0, 1, 2] 1
    (by simp) rfl

end MoranProofs

/-! ## Dataset construction

Embedding of `STDataset.__init__` from `svgbit/core/STDataset.py` for
DataFrame inputs (the `count_transpose`/`coordinate_transpose` flags and
the file-path branches are outside the claims and left at their defaults).

Python DataFrames are heap objects; aliasing matters for the claims about
mutation of caller-owned inputs.  The heap is modelled as a `Store`, a
list of DataFrame values addressed by position; a Python variable holding
a DataFrame is a reference (an index into the store).  Every operation of
the constructor is either a fresh allocation (`deepcopy`, `reindex`,
`astype`) appending to the store, or an in-place mutation
(`sort_index(inplace=True)`, `.columns = ...`, `fillna(inplace=True)`)
writing through an existing reference. -/

/-- A pandas DataFrame: row labels (spot keys, as naturals), column
labels (gene names), row-major entries (`none` is NaN) and a flag for
sparse dtype. -/
structure DF where
  index : List ℕ
  cols : List String
  rows : List (List (Option ℚ))
  sparse : Bool
deriving Repr, DecidableEq

/-- The heap of DataFrame objects. -/
abbrev Store := List DF

/-- Dereference a DataFrame pointer. -/
def readRef (s : Store) (r : ℕ) : Option DF := s[r]?

/-- In-place mutation through a DataFrame pointer. -/
def writeRef (s : Store) (r : ℕ) (v : DF) : Store := s.set r v

/-- Stable insertion of an (index key, row) pair into a key-sorted list;
ties keep the earlier pair first. -/
def insertPair (p : ℕ × List (Option ℚ)) :
    List (ℕ × List (Option ℚ)) → List (ℕ × List (Option ℚ))
  | [] => [p]
  | q :: rest => if p.1 ≤ q.1 then p :: q :: rest else q :: insertPair p rest

/-- `df.sort_index()`: reorder the rows by ascending index key. -/
def sortIndex (df : DF) : DF :=
  let pairs := (df.index.zip df.rows).foldr insertPair []
  { df with index := pairs.map Prod.fst, rows := pairs.map Prod.snd }

/-- `df.reindex(index=newIdx)`: a NEW DataFrame whose rows are looked up
by key in `df`; keys absent from `df` produce all-NaN rows.  pandas
raises when the existing index contains duplicates. -/
def reindexDF (df : DF) (newIdx : List ℕ) : Except String DF :=
  if df.index.Nodup then
    Except.ok ({ df with
        index := newIdx,
        rows := newIdx.map (fun k =>
          (((df.index.zip df.rows).lookup k).getD
            (List.replicate df.cols.length none))) })
  else Except.error "cannot reindex from a duplicate axis"

/-- `df.fillna(0)`: replace every NaN entry by 0. -/
def fillna0 (df : DF) : DF :=
  { df with rows := df.rows.map (fun r => r.map (fun e => some (e.getD 0))) }

/-- The duplicate-gene renaming loop of `__init__`: a column name that
occurs more than once keeps its first occurrence unchanged and gets
suffixes `.1`, `.2`, ... on later occurrences.  `seen` is the
`gene_suffix` dict (most recent binding first). -/
def renameDupAux (cnt : String → ℕ) :
    List String → List (String × ℕ) → List String
  | [], _ => []
  | g :: rest, seen =>
    if cnt g > 1 then
      match seen.lookup g with
      | some k =>
        (g ++ "." ++ toString (k + 1)) :: renameDupAux cnt rest ((g, k + 1) :: seen)
      | none => g :: renameDupAux cnt rest ((g, 0) :: seen)
    else g :: renameDupAux cnt rest seen

/-- Renamed column list, using the global occurrence counts. -/
def renameDup (cols : List String) : List String :=
  renameDupAux (fun g => cols.count g) cols []

/-- Whether any column name is duplicated (the `flag` of the loop). -/
def hasDupCols (cols : List String) : Bool :=
  cols.any (fun g => cols.count g > 1)

/-- The references held by a constructed `STDataset`: its `_count_df` and
`_coordinate_df` attributes. -/
structure DState where
  countRef : ℕ
  coordRef : ℕ
deriving Repr, DecidableEq

/-- The `sort_spots` block of `__init__`: with `sort_spots`, the count
copy (held at reference `c`, value `cdf0`) is sorted in place by index
and the coordinate attribute is rebound to a NEW reindex of the
coordinate copy over the sorted count index; otherwise the attribute
keeps the reference `dDefault` to the plain coordinate copy.  Returns the
store, the coordinate reference and the current count and coordinate
values. -/
def constructSortBlock (s2 : Store) (c : ℕ) (cdf0 ddf0 : DF)
    (sortSpots : Bool) (dDefault : ℕ) : Except String (Store × ℕ × DF × DF) :=
  if sortSpots then
    let cdf1 := sortIndex cdf0
    let s3 := writeRef s2 c cdf1
    match reindexDF ddf0 cdf1.index with
    | Except.error e => Except.error e
    | Except.ok ddf1 => Except.ok (s3 ++ [ddf1], s3.length, cdf1, ddf1)
  else Except.ok (s2, dDefault, cdf0, ddf0)

/-- The remainder of `__init__` after the `sort_spots` block:

1. the coordinate columns are renamed to X, Y in place (pandas requires
   exactly two columns);
2. the two asserts: equal spot counts, then elementwise equal indexes;
3. `fillna(0, inplace=True)` on the count copy at reference `c`;
4. with `check_duplicate_genes`, duplicated gene names are suffix-renamed
   in place;
5. with `make_sparse`, `to_sparse` rebinds the count attribute to a NEW
   sparse-dtype copy. -/
def constructFinish (s4 : Store) (c d1 : ℕ) (cdf1 ddf1 : DF)
    (checkDup makeSparse : Bool) : Except String (Store × DState) :=
  if ddf1.cols.length = 2 then
    let ddf2 : DF := { ddf1 with cols := ["X", "Y"] }
    let s5 := writeRef s4 d1 ddf2
    if cdf1.index.length ≠ ddf2.index.length then
      Except.error "Expression matrix and coordinate file have different number of spots."
    else if cdf1.index ≠ ddf2.index then
      Except.error "Spots name mismatch!"
    else
      let cdf2 := fillna0 cdf1
      let s6 := writeRef s5 c cdf2
      let cdf3 : DF :=
        if checkDup && hasDupCols cdf2.cols then
          { cdf2 with cols := renameDup cdf2.cols }
        else cdf2
      let s7 :=
        if checkDup && hasDupCols cdf2.cols then writeRef s6 c cdf3 else s6
      if makeSparse then
        Except.ok (s7 ++ [{ cdf3 with sparse := true }], ⟨s7.length, d1⟩)
      else Except.ok (s7, ⟨c, d1⟩)
  else Except.error "Length mismatch: expected axis has 2 elements"

/-- Embedding of `STDataset.__init__(count_df, coordinate_df,
sort_spots=..., check_duplicate_genes=..., make_sparse=...)` for
DataFrame arguments `countR`/`coordR` (references into the caller heap):
both inputs are deepcopied into fresh cells, then the `sort_spots` block
and the remaining steps run. -/
def construct (s0 : Store) (countR coordR : ℕ)
    (sortSpots checkDup makeSparse : Bool) : Except String (Store × DState) :=
  match readRef s0 countR, readRef s0 coordR with
  | some cdf0, some ddf0 =>
    match constructSortBlock (s0 ++ [cdf0] ++ [ddf0]) s0.length cdf0 ddf0
        sortSpots (s0.length + 1) with
    | Except.error e => Except.error e
    | Except.ok (s4, d1, cdf1, ddf1) =>
      constructFinish s4 s0.length d1 cdf1 ddf1 checkDup makeSparse
  | _, _ => Except.error "invalid DataFrame reference"

/-- The value rebuilt by the steps after the sort block: NaN fill,
optional duplicate-gene rename, optional sparse conversion. -/
def postCountFrom (cdf1 : DF) (checkDup makeSparse : Bool) : DF :=
  let c2 := fillna0 cdf1
  let c3 :=
    if checkDup && hasDupCols c2.cols then
      { c2 with cols := renameDup c2.cols }
    else c2
  if makeSparse then { c3 with sparse := true } else c3

/-- The value held by the count attribute of a successfully constructed
dataset, as a function of the input count DataFrame and the flags
(derived from `construct`): optional index sort, NaN fill, optional
duplicate-gene rename, optional sparse conversion. -/
def postCount (cdf : DF) (sortSpots checkDup makeSparse : Bool) : DF :=
  postCountFrom (if sortSpots then sortIndex cdf else cdf) checkDup makeSparse

section ConstructProofs

/-- Store extension: at least as long, and agreeing with the original
store on every original reference. -/
def Ext (s0 t : Store) : Prop :=
  s0.length ≤ t.length ∧ ∀ r, r < s0.length → readRef t r = readRef s0 r

private lemma ext_refl (s0 : Store) : Ext s0 s0 :=
  ⟨le_refl _, fun _ _ => rfl⟩

private lemma ext_append (s0 t l : Store) (h : Ext s0 t) : Ext s0 (t ++ l) := by
  refine ⟨le_trans h.1 (by simp), fun r hr => ?_⟩
  have hrt : r < t.length := lt_of_lt_of_le hr h.1
  unfold readRef
  rw [List.getElem?_append, if_pos hrt]
  exact h.2 r hr

private lemma ext_set (s0 t : Store) (j : ℕ) (v : DF) (h : Ext s0 t)
    (hj : s0.length ≤ j) : Ext s0 (writeRef t j v) := by
  refine ⟨by simpa [writeRef] using h.1, fun r hr => ?_⟩
  unfold readRef writeRef
  rw [List.getElem?_set_ne (show j ≠ r from fun hh =>
    absurd hr (by omega))]
  exact h.2 r hr

private lemma readRef_set_self (t : Store) (j : ℕ) (v : DF)
    (hj : j < t.length) : readRef (writeRef t j v) j = some v := by
  unfold readRef writeRef
  simp [hj]

private lemma readRef_append_self (t : Store) (v : DF) :
    readRef (t ++ [v]) t.length = some v := by
  unfold readRef
  simp

private lemma sortBlock_ok (s0 : Store) (cdf0 ddf0 : DF) (ss : Bool)
    (s4 : Store) (d1 : ℕ) (cdf1 ddf1 : DF)
    (h : constructSortBlock (s0 ++ [cdf0] ++ [ddf0]) s0.length cdf0 ddf0 ss
        (s0.length + 1) = Except.ok (s4, d1, cdf1, ddf1)) :
    Ext s0 s4 ∧ s0.length + 1 ≤ d1 ∧ s0.length + 2 ≤ s4.length ∧
      cdf1 = (if ss then sortIndex cdf0 else cdf0) := by
  cases ss with
  | false =>
    simp only [constructSortBlock, Bool.false_eq_true, if_false,
      Except.ok.injEq, Prod.mk.injEq] at h
    obtain ⟨h1, h2, h3, h4⟩ := h
    subst h1 h2 h3 h4
    refine ⟨ext_append _ _ _ (ext_append _ _ _ (ext_refl s0)), ?_, ?_, rfl⟩
    · omega
    · simp
  | true =>
    simp only [constructSortBlock, if_true] at h
    cases hre : reindexDF ddf0 (sortIndex cdf0).index with
    | error e => rw [hre] at h; cases h
    | ok ddfr =>
      rw [hre] at h
      simp only [Except.ok.injEq, Prod.mk.injEq] at h
      obtain ⟨h1, h2, h3, h4⟩ := h
      subst h1 h2 h3 h4
      refine ⟨ext_append _ _ _ (ext_set _ _ _ _
          (ext_append _ _ _ (ext_append _ _ _ (ext_refl s0))) (le_refl _)),
        ?_, ?_, rfl⟩
      · simp [writeRef]
      · simp [writeRef]

private lemma finish_ok (s4 : Store) (c d1 : ℕ) (cdf1 ddf1 : DF)
    (cd ms : Bool) (s2 : Store) (ds : DState)
    (h : constructFinish s4 c d1 cdf1 ddf1 cd ms = Except.ok (s2, ds))
    (hc : c < s4.length) :
    readRef s2 ds.countRef = some (postCountFrom cdf1 cd ms) ∧
      ∀ s0 : Store, Ext s0 s4 → s0.length ≤ c → s0.length ≤ d1 → Ext s0 s2 := by
  by_cases hcols : ddf1.cols.length = 2
  · simp only [constructFinish, if_pos hcols] at h
    by_cases hlen : cdf1.index.length = ({ ddf1 with cols := ["X", "Y"] } : DF).index.length
    · rw [if_neg (by simpa using hlen)] at h
      by_cases hidx : cdf1.index = ({ ddf1 with cols := ["X", "Y"] } : DF).index
      · rw [if_neg (by simpa using hidx)] at h
        by_cases hdup : (cd && hasDupCols (fillna0 cdf1).cols) = true
        · simp only [hdup, if_true] at h
          cases ms with
          | true =>
            simp only [if_true, Except.ok.injEq, Prod.mk.injEq] at h
            obtain ⟨h1, h2⟩ := h
            subst h1 h2
            constructor
            · have hpc : postCountFrom cdf1 cd true
                  = ({ { fillna0 cdf1 with
                      cols := renameDup (fillna0 cdf1).cols } with
                      sparse := true } : DF) := by
                simp [postCountFrom, hdup]
              rw [hpc]
              exact readRef_append_self _ _
            · intro s0 hx hcle hdle
              exact ext_append _ _ _ (ext_set _ _ _ _ (ext_set _ _ _ _
                (ext_set _ _ _ _ hx hdle) hcle) hcle)
          | false =>
            simp only [Bool.false_eq_true, if_false, Except.ok.injEq,
              Prod.mk.injEq] at h
            obtain ⟨h1, h2⟩ := h
            subst h1 h2
            constructor
            · have hpc : postCountFrom cdf1 cd false
                  = ({ fillna0 cdf1 with cols := renameDup (fillna0 cdf1).cols } : DF) := by
                simp [postCountFrom, hdup]
              rw [hpc]
              exact readRef_set_self _ _ _ (by simpa [writeRef] using hc)
            · intro s0 hx hcle hdle
              exact ext_set _ _ _ _ (ext_set _ _ _ _
                (ext_set _ _ _ _ hx hdle) hcle) hcle
        · simp only [hdup, if_false, Bool.false_eq_true] at h
          cases ms with
          | true =>
            simp only [if_true, Except.ok.injEq, Prod.mk.injEq] at h
            obtain ⟨h1, h2⟩ := h
            subst h1 h2
            constructor
            · have hpc : postCountFrom cdf1 cd true
                  = ({ fillna0 cdf1 with sparse := true } : DF) := by
                simp [postCountFrom, hdup]
              rw [hpc]
              exact readRef_append_self _ _
            · intro s0 hx hcle hdle
              exact ext_append _ _ _ (ext_set _ _ _ _
                (ext_set _ _ _ _ hx hdle) hcle)
          | false =>
            simp only [Bool.false_eq_true, if_false, Except.ok.injEq,
              Prod.mk.injEq] at h
            obtain ⟨h1, h2⟩ := h
            subst h1 h2
            constructor
            · have hpc : postCountFrom cdf1 cd false = fillna0 cdf1 := by
                simp [postCountFrom, hdup]
              rw [hpc]
              exact readRef_set_self _ _ _ (by simpa [writeRef] using hc)
            · intro s0 hx hcle hdle
              exact ext_set _ _ _ _ (ext_set _ _ _ _ hx hdle) hcle
      · rw [if_pos (by simpa using hidx)] at h
        cases h
    · rw [if_pos (by simpa using hlen)] at h
      cases h
  · rw [constructFinish, if_neg hcols] at h
    cases h

private lemma construct_ok_full (s0 : Store) (cR dR : ℕ) (ss cd ms : Bool)
    (cdf0 ddf0 : DF) (s2 : Store) (ds : DState)
    (hr : readRef s0 cR = some cdf0) (hd : readRef s0 dR = some ddf0)
    (h : construct s0 cR dR ss cd ms = Except.ok (s2, ds)) :
    readRef s2 ds.countRef = some (postCount cdf0 ss cd ms) ∧ Ext s0 s2 := by
  unfold construct at h
  rw [hr, hd] at h
  replace h : (match constructSortBlock (s0 ++ [cdf0] ++ [ddf0]) s0.length
        cdf0 ddf0 ss (s0.length + 1) with
      | Except.error e => Except.error e
      | Except.ok (s4, d1, cdf1, ddf1) =>
        constructFinish s4 s0.length d1 cdf1 ddf1 cd ms)
      = Except.ok (s2, ds) := h
  cases hsb : constructSortBlock (s0 ++ [cdf0] ++ [ddf0]) s0.length cdf0 ddf0
      ss (s0.length + 1) with
  | error e =>
    rw [hsb] at h
    cases h
  | ok out =>
    obtain ⟨s4, d1, cdf1, ddf1⟩ := out
    rw [hsb] at h
    replace h : constructFinish s4 s0.length d1 cdf1 ddf1 cd ms
        = Except.ok (s2, ds) := h
    obtain ⟨hext4, hd1, hlen4, hcdf1⟩ :=
      sortBlock_ok s0 cdf0 ddf0 ss s4 d1 cdf1 ddf1 hsb
    have hfin := finish_ok s4 s0.length d1 cdf1 ddf1 cd ms s2 ds h
      (by omega)
    refine ⟨?_, hfin.2 s0 hext4 (le_refl _) (by omega)⟩
    rw [hfin.1, postCount, hcdf1]

end ConstructProofs

/-- Caller count matrix for the key-mismatch scenario: spots 1 and 2. -/
def dfC4count : DF := ⟨[1, 2], ["g"], [[some 1], [some 2]], false⟩

/-- Caller coordinate table for the key-mismatch scenario: spots 1 and 3,
so the spot-key sets differ from `dfC4count`. -/
def dfC4coord : DF := ⟨[1, 3], ["a", "b"], [[some 0, some 0], [some 1, some 1]], false⟩

/-- C4 counterexample.  Spot 2 has expression data but no coordinate row,
so the spot-key sets of the two inputs differ, yet construction with the
default `sort_spots=True` succeeds: the coordinate table is reindexed to
the count index before the asserts run, so the mismatch is silently
repaired (spot 2 gets NaN coordinates) instead of raising. -/
theorem construct_mismatch_counterexample :
    (2 : ℕ) ∈ dfC4count.index ∧ (2 : ℕ) ∉ dfC4coord.index ∧
      (construct [dfC4count, dfC4coord] 0 1 true true true).isOk = true := by
  refine ⟨by decide, by decide, by rfl⟩

/-- C4 (amended).  With `sort_spots=False` the constructor raises exactly
when the two spot-index sequences are not identical (in particular on
every key-set mismatch); with the default `sort_spots=True` the
coordinate table is first reindexed to the sorted count index, so both
asserts always pass and construction succeeds regardless of the key
sets. -/
private lemma construct_noSort_isOk (s0 : Store) (cR dR : ℕ) (cdf0 ddf0 : DF)
    (cd ms : Bool)
    (hr : readRef s0 cR = some cdf0) (hd : readRef s0 dR = some ddf0)
    (hcols : ddf0.cols.length = 2) :
    (construct s0 cR dR false cd ms).isOk = true ↔ cdf0.index = ddf0.index := by
  have hokIsOk : ∀ (x : Store × DState),
      (Except.ok x : Except String (Store × DState)).isOk = true := fun _ => rfl
  have hbody : construct s0 cR dR false cd ms
      = constructFinish (s0 ++ [cdf0] ++ [ddf0]) s0.length (s0.length + 1)
        cdf0 ddf0 cd ms := by
    unfold construct
    rw [hr, hd]
    rfl
  rw [hbody]
  unfold constructFinish
  rw [if_pos hcols]
  by_cases hidx : cdf0.index = ddf0.index
  · have hlen : cdf0.index.length
        = ({ ddf0 with cols := ["X", "Y"] } : DF).index.length := by
      simp [hidx]
    rw [if_neg (by simpa using hlen), if_neg (by simpa using hidx)]
    simp only [hidx, iff_true]
    cases ms with
    | true => exact hokIsOk _
    | false => exact hokIsOk _
  · simp only [hidx, iff_false]
    by_cases hlen : cdf0.index.length = ddf0.index.length
    · rw [if_neg (by simpa using hlen), if_pos (by simpa using hidx)]
      simp [Except.isOk, Except.toBool]
    · rw [if_pos (by simpa using hlen)]
      simp [Except.isOk, Except.toBool]

theorem construct_keyset_amended (s0 : Store) (cR dR : ℕ) (cdf0 ddf0 : DF)
    (cd ms : Bool)
    (hr : readRef s0 cR = some cdf0) (hd : readRef s0 dR = some ddf0)
    (hcols : ddf0.cols.length = 2) :
    ((construct s0 cR dR false cd ms).isOk = true ↔ cdf0.index = ddf0.index)
      ∧ (ddf0.index.Nodup → (construct s0 cR dR true cd ms).isOk = true) := by
  have hokIsOk : ∀ (x : Store × DState),
      (Except.ok x : Except String (Store × DState)).isOk = true := fun _ => rfl
  constructor
  · exact construct_noSort_isOk s0 cR dR cdf0 ddf0 cd ms hr hd hcols
  · intro hnd
    have hre : reindexDF ddf0 (sortIndex cdf0).index
        = Except.ok ({ ddf0 with
            index := (sortIndex cdf0).index,
            rows := (sortIndex cdf0).index.map (fun k =>
              (((ddf0.index.zip ddf0.rows).lookup k).getD
                (List.replicate ddf0.cols.length none))) }) := by
      unfold reindexDF
      rw [if_pos hnd]
    have hbody : construct s0 cR dR true cd ms
        = constructFinish
          (writeRef (s0 ++ [cdf0] ++ [ddf0]) s0.length (sortIndex cdf0)
            ++ [{ ddf0 with
              index := (sortIndex cdf0).index,
              rows := (sortIndex cdf0).index.map (fun k =>
                (((ddf0.index.zip ddf0.rows).lookup k).getD
                  (List.replicate ddf0.cols.length none))) }])
          s0.length
          (writeRef (s0 ++ [cdf0] ++ [ddf0]) s0.length (sortIndex cdf0)).length
          (sortIndex cdf0)
          ({ ddf0 with
            index := (sortIndex cdf0).index,
            rows := (sortIndex cdf0).index.map (fun k =>
              (((ddf0.index.zip ddf0.rows).lookup k).getD
                (List.replicate ddf0.cols.length none))) })
          cd ms := by
      unfold construct
      rw [hr, hd]
      show (match constructSortBlock (s0 ++ [cdf0] ++ [ddf0]) s0.length
            cdf0 ddf0 true (s0.length + 1) with
          | Except.error e => Except.error e
          | Except.ok (s4, d1, cdf1, ddf1) =>
            constructFinish s4 s0.length d1 cdf1 ddf1 cd ms) = _
      unfold constructSortBlock
      rw [if_pos rfl]
      simp only [hre]
    rw [hbody]
    unfold constructFinish
    rw [if_pos (by simpa using hcols)]
    rw [if_neg (by simp), if_neg (by simp)]
    cases ms with
    | true => exact hokIsOk _
    | false => exact hokIsOk _

/-- Witness for `construct_keyset_amended` at a concrete store. -/
theorem construct_keyset_amended_witness :
    ((construct [dfC4count, dfC4coord] 0 1 false true true).isOk = true
        ↔ dfC4count.index = dfC4coord.index)
      ∧ (dfC4coord.index.Nodup →
        (construct [dfC4count, dfC4coord] 0 1 true true true).isOk = true) :=
  construct_keyset_amended [dfC4count, dfC4coord] 0 1 dfC4count dfC4coord
    true true rfl rfl rfl

/-- C9.  A successful construction leaves, in the count attribute, the
input expression matrix with rows reordered by the index sort and every
entry passed through the NaN fill: a missing (`none`) entry becomes
`some 0` and a present entry `some v` is kept unchanged; in particular
the constructed matrix contains no NaN entry. -/
theorem construct_fillna_spec (s0 : Store) (cR dR : ℕ) (cdf0 ddf0 : DF)
    (cd : Bool) (s2 : Store) (ds : DState)
    (hr : readRef s0 cR = some cdf0) (hd : readRef s0 dR = some ddf0)
    (h : construct s0 cR dR true cd true = Except.ok (s2, ds)) :
    readRef s2 ds.countRef = some (postCount cdf0 true cd true) ∧
      (postCount cdf0 true cd true).rows
        = (sortIndex cdf0).rows.map (fun row => row.map (fun e => some (e.getD 0))) ∧
      (∀ row ∈ (postCount cdf0 true cd true).rows, ∀ e ∈ row, e.isSome = true) := by
  have hrows : (postCount cdf0 true cd true).rows
      = (sortIndex cdf0).rows.map (fun row => row.map (fun e => some (e.getD 0))) := by
    unfold postCount postCountFrom fillna0
    by_cases hdup : (cd && hasDupCols
        (fillna0 (sortIndex cdf0)).cols) = true
    · simp only [fillna0] at hdup
      simp [hdup]
    · simp only [fillna0] at hdup
      simp [hdup]
  refine ⟨(construct_ok_full s0 cR dR true cd true cdf0 ddf0 s2 ds hr hd h).1,
    hrows, ?_⟩
  rw [hrows]
  intro row hrow e he
  obtain ⟨row0, _, rfl⟩ := List.mem_map.1 hrow
  obtain ⟨e0, _, rfl⟩ := List.mem_map.1 he
  rfl

/-- Caller count matrix with a NaN entry (spot 2, gene g) and unsorted
spot keys. -/
def dfC9count : DF := ⟨[2, 1], ["g"], [[none], [some 3]], false⟩

/-- Caller coordinate table matching the spot keys of `dfC9count`. -/
def dfC9coord : DF := ⟨[1, 2], ["a", "b"], [[some 0, some 0], [some 1, some 1]], false⟩

/-- The store and dataset produced by constructing from the C9 inputs. -/
def c9Result : Store × DState :=
  ((construct [dfC9count, dfC9coord] 0 1 true true true).toOption).getD ([], ⟨0, 0⟩)

/-- Witness for `construct_fillna_spec` at a concrete input with a NaN
entry. -/
theorem construct_fillna_witness :
    readRef c9Result.1 c9Result.2.countRef
        = some (postCount dfC9count true true true) ∧
      (postCount dfC9count true true true).rows
        = (sortIndex dfC9count).rows.map
          (fun row => row.map (fun e => some (e.getD 0))) ∧
      (∀ row ∈ (postCount dfC9count true true true).rows,
        ∀ e ∈ row, e.isSome = true) :=
  construct_fillna_spec [dfC9count, dfC9coord] 0 1 dfC9count dfC9coord
    true c9Result.1 c9Result.2 rfl rfl (by rfl)

/-! ## Gene clustering

Embedding of `cluster` from `SVGLib/core/cluster.py` (the claims cite
this `cluster` module; the svgbit package calls an equivalent module).
The scipy chain `pdist` (jaccard) / `linkage` (ward) / `fcluster`
(maxclust) is external; it is abstracted as `fcluster`, which by the
scipy contract returns one flat-cluster label per observation — the
observations are the selected genes, the rows of `hotspot_set.T`. -/

/-- Stable insertion into a sorted list under a boolean order. -/
def insertBy {α : Type} (le : α → α → Bool) (a : α) : List α → List α
  | [] => [a]
  | b :: l => if le a b then a :: b :: l else b :: insertBy le a l

/-- Insertion sort, stable for elements the order considers equal. -/
def sortListBy {α : Type} (le : α → α → Bool) (l : List α) : List α :=
  l.foldr (insertBy le) []

/-- `AI_series.sort_values(ascending=False)`: genes with their AI values,
sorted by descending AI. -/
def sortValuesDesc (ai : List (ℕ × ℚ)) : List (ℕ × ℚ) :=
  sortListBy (fun a b => decide (b.2 ≤ a.2)) ai

/-- `pd.Series(data, index=idx)`: pandas raises ValueError when the data
and the explicit index have different lengths. -/
def mkSeries (data : List ℕ) (idx : List ℕ) : Except String (List (ℕ × ℕ)) :=
  if data.length = idx.length then Except.ok (idx.zip data)
  else Except.error "Length of values does not match length of index"

/-- Embedding of `cluster(hotspot_df, AI_series, n_genes,
n_gene_clusters)`: the top `n_genes` genes by AI are selected, the
external clustering produces one label per selected gene, and the result
Series is then built with `index=hotspot_df.index` — the SPOT index
(`hotspotIndex` here) — and sorted by value. -/
def clusterSVGLib (hotspotIndex : List ℕ) (ai : List (ℕ × ℚ)) (nGenes : ℕ)
    (fcluster : ℕ → List ℕ) : Except String (List (ℕ × ℕ)) :=
  match mkSeries (fcluster (((sortValuesDesc ai).take nGenes).map Prod.fst).length)
      hotspotIndex with
  | Except.error e => Except.error e
  | Except.ok ser => Except.ok (sortListBy (fun a b => decide (a.2 ≤ b.2)) ser)

/-- C7.  On a dataset with 4 spots and 3 genes, selecting the top 2 genes
by AI, any scipy-conforming clustering output (one label per selected
gene) makes the final Series construction raise: the per-gene labels are
indexed by the 4-element spot index instead of the 2 selected genes, so
the stage cannot return a gene-labelled assignment of
`min(n_svgs, total genes)` entries. -/
theorem cluster_spot_index_bug (fcluster : ℕ → List ℕ)
    (hf : ∀ m, (fcluster m).length = m) :
    (clusterSVGLib [10, 11, 12, 13] [(0, 3), (1, 2), (2, 1)] 2 fcluster).isOk
      = false := by
  have h2 : (((sortValuesDesc [(0, 3), (1, 2), (2, 1)]).take 2).map
      Prod.fst).length = 2 := by decide
  unfold clusterSVGLib mkSeries
  rw [h2, hf 2]
  rw [if_neg (by norm_num)]
  rfl

/-- A clustering backend satisfying the scipy contract: labels
`1, ..., m` for `m` observations. -/
def demoFcluster : ℕ → List ℕ := fun m => (List.range m).map (fun i => i + 1)

/-- Witness for `cluster_spot_index_bug` with a concrete backend. -/
theorem cluster_spot_index_bug_witness :
    (clusterSVGLib [10, 11, 12, 13] [(0, 3), (1, 2), (2, 1)] 2 demoFcluster).isOk
      = false :=
  cluster_spot_index_bug demoFcluster (fun m => by simp [demoFcluster])

/-! ## CPM normalization

Embedding of `cpm_normalizer` from `svgbit/core/normalizers.py`. -/

/-- The total of a row under pandas sum semantics (NaN skipped). -/
def rowTotal (r : List (Option ℚ)) : ℚ := (r.map (fun e => e.getD 0)).sum

/-- `(count_df.T * 10000 / count_df.T.sum()).T`: every row is scaled
entrywise by `10000 / rowTotal` (the column sums of the transposed frame
are the row sums of the original; a NaN entry stays NaN under the
arithmetic). -/
def scaleRows (df : DF) : DF :=
  { df with rows := df.rows.map (fun r =>
      r.map (Option.map (fun v => v * 10000 / rowTotal r))) }

/-- Embedding of `cpm_normalizer(dataset)`.  The first `try` requires a
sparse count frame: on a dense frame the `.sparse` accessor raises
AttributeError, the local `count_df` stays unbound, and the second `try`
then raises an uncaught NameError, so only the sparse case proceeds.
`to_dense()` allocates a dense copy, the scaling arithmetic allocates the
scaled frame, and a new STDataset is constructed from it and the
coordinate frame of the input dataset with `check_duplicate_genes=False`,
`sort_spots=False` and the default `make_sparse=True`. -/
def cpmNormalizer (s0 : Store) (ds : DState) : Except String (Store × DState) :=
  match readRef s0 ds.countRef with
  | none => Except.error "invalid DataFrame reference"
  | some cdf =>
    if cdf.sparse then
      construct (s0 ++ [{ cdf with sparse := false }]
          ++ [scaleRows { cdf with sparse := false }])
        (s0.length + 1) ds.coordRef false false true
    else Except.error "NameError: name count_df is not defined"

section CpmProofs

private lemma rowTotal_scaled (row : List (Option ℚ)) (t : ℚ)
    (hfin : ∀ e ∈ row, e.isSome = true) :
    rowTotal ((row.map (Option.map (fun v => v * 10000 / t))).map
        (fun e => some (e.getD 0)))
      = rowTotal row * 10000 / t := by
  induction row with
  | nil => simp [rowTotal]
  | cons a r ih =>
    have ha : a.isSome = true := hfin a (List.mem_cons_self a r)
    obtain ⟨v, rfl⟩ := Option.isSome_iff_exists.1 ha
    have ih2 := ih (fun e he => hfin e (List.mem_cons_of_mem _ he))
    simp only [rowTotal, List.map_cons, List.sum_cons, Option.map_some',
      Option.getD_some] at ih2 ⊢
    rw [ih2]
    ring

end CpmProofs

/-- Input dataset cell for the CPM scenarios: a sparse (default
`make_sparse=True`) 2-spot, 2-gene count matrix with NaN-free rows of
positive totals. -/
def dfCpmCount : DF := ⟨[1, 2], ["g", "h"], [[some 1, some 3], [some 2, some 2]], true⟩

/-- The same count matrix with a dense dtype, as produced by
`make_sparse=False` or `to_dense()`. -/
def dfCpmDense : DF := ⟨[1, 2], ["g", "h"], [[some 1, some 3], [some 2, some 2]], false⟩

/-- Coordinate cell for the CPM scenarios. -/
def dfCpmCoord : DF := ⟨[1, 2], ["a", "b"], [[some 0, some 0], [some 1, some 1]], false⟩

/-- C10 counterexample.  A dense dataset with positive per-spot totals:
`cpm_normalizer` does not return a new dataset — the `.sparse` accessor
raises AttributeError, which the first `try` swallows leaving the local
`count_df` unbound, and the second `try` (catching only AttributeError)
then raises an uncaught NameError.  Both rows have positive totals, so
the claim as stated covers this input. -/
theorem cpm_dense_counterexample :
    0 < rowTotal [some 1, some 3] ∧ 0 < rowTotal [some 2, some 2] ∧
      dfCpmDense.rows = [[some 1, some 3], [some 2, some 2]] ∧
      (cpmNormalizer [dfCpmDense, dfCpmCoord] ⟨0, 1⟩).isOk = false := by
  refine ⟨by norm_num [rowTotal], by norm_num [rowTotal], rfl, rfl⟩

/-- C10 (amended).  For every SPARSE dataset (the default
`make_sparse=True`) whose expression rows are NaN-free with positive
totals and whose spot index matches its two-column coordinate table,
`cpm_normalizer` succeeds and the new dataset has every expression row
summing to exactly 10000 (counts per ten thousand, despite the CPM name),
while the input dataset cell still holds the original matrix.  A dense
dataset instead hits the uncaught-NameError path
(`cpm_dense_counterexample`). -/
theorem cpm_normalizer_spec (s0 : Store) (ds : DState) (cdf ddf : DF)
    (hcount : readRef s0 ds.countRef = some cdf)
    (hcoord : readRef s0 ds.coordRef = some ddf)
    (hsp : cdf.sparse = true)
    (hidx : cdf.index = ddf.index)
    (hcols : ddf.cols.length = 2)
    (hfin : ∀ row ∈ cdf.rows, ∀ e ∈ row, e.isSome = true)
    (hpos : ∀ row ∈ cdf.rows, 0 < rowTotal row) :
    ∃ s2 ds2, cpmNormalizer s0 ds = Except.ok (s2, ds2) ∧
      (∃ out, readRef s2 ds2.countRef = some out ∧
        ∀ row ∈ out.rows, rowTotal row = 10000) ∧
      readRef s2 ds.countRef = some cdf := by
  have hclt : ds.countRef < s0.length := by
    have hc' := hcount
    unfold readRef at hc'
    exact (List.getElem?_eq_some.1 hc').1
  have hdlt : ds.coordRef < s0.length := by
    have hd' := hcoord
    unfold readRef at hd'
    exact (List.getElem?_eq_some.1 hd').1
  set base : Store := s0 ++ [{ cdf with sparse := false }]
    ++ [scaleRows { cdf with sparse := false }] with hbase
  have hcpm : cpmNormalizer s0 ds
      = construct base (s0.length + 1) ds.coordRef false false true := by
    unfold cpmNormalizer
    rw [hcount]
    show (if cdf.sparse then
        construct (s0 ++ [{ cdf with sparse := false }]
            ++ [scaleRows { cdf with sparse := false }])
          (s0.length + 1) ds.coordRef false false true
      else Except.error "NameError: name count_df is not defined") = _
    rw [if_pos hsp, hbase]
  have hrS : readRef base (s0.length + 1) = some
      (scaleRows { cdf with sparse := false }) := by
    have hlen1 : s0.length + 1 = (s0 ++ [{ cdf with sparse := false }]).length := by
      simp
    rw [hbase, hlen1]
    exact readRef_append_self _ _
  have hrD : readRef base ds.coordRef = some ddf := by
    rw [hbase]
    unfold readRef
    rw [List.getElem?_append, if_pos (by simpa using Nat.lt_succ_of_lt hdlt)]
    rw [List.getElem?_append, if_pos hdlt]
    exact hcoord
  have hscolidx : (scaleRows { cdf with sparse := false }).index = ddf.index := by
    rw [← hidx]
    rfl
  have hok : (construct base (s0.length + 1) ds.coordRef false false true).isOk
      = true :=
    (construct_noSort_isOk base (s0.length + 1) ds.coordRef
      (scaleRows { cdf with sparse := false }) ddf false true hrS hrD hcols).2
      hscolidx
  cases hc : construct base (s0.length + 1) ds.coordRef false false true with
  | error e =>
    rw [hc] at hok
    cases hok
  | ok p =>
    obtain ⟨s2, ds2⟩ := p
    obtain ⟨hval, hext⟩ := construct_ok_full base (s0.length + 1) ds.coordRef
      false false true (scaleRows { cdf with sparse := false }) ddf s2 ds2
      hrS hrD hc
    refine ⟨s2, ds2, by rw [hcpm, hc], ?_, ?_⟩
    · refine ⟨postCount (scaleRows { cdf with sparse := false }) false false true,
        hval, ?_⟩
      intro row hrow
      have hrows : (postCount (scaleRows { cdf with sparse := false })
          false false true).rows
          = (scaleRows { cdf with sparse := false }).rows.map
            (fun r => r.map (fun e => some (e.getD 0))) := by
        simp [postCount, postCountFrom, fillna0, hasDupCols]
      rw [hrows] at hrow
      obtain ⟨r1, hr1, rfl⟩ := List.mem_map.1 hrow
      have hr1m : r1 ∈ cdf.rows.map (fun r =>
          r.map (Option.map (fun v => v * 10000 / rowTotal r))) := by
        simpa [scaleRows] using hr1
      obtain ⟨r0, hr0, rfl⟩ := List.mem_map.1 hr1m
      rw [rowTotal_scaled r0 (rowTotal r0) (hfin r0 hr0)]
      have ht := hpos r0 hr0
      field_simp
    · have hlow : ds.countRef < base.length := by
        rw [hbase]
        simp
        omega
      rw [hext.2 ds.countRef hlow]
      rw [hbase]
      unfold readRef
      rw [List.getElem?_append, if_pos (by simpa using Nat.lt_succ_of_lt hclt)]
      rw [List.getElem?_append, if_pos hclt]
      exact hcount

/-- Witness for `cpm_normalizer_spec` at the concrete sparse dataset. -/
theorem cpm_normalizer_spec_witness :
    ∃ s2 ds2, cpmNormalizer [dfCpmCount, dfCpmCoord] ⟨0, 1⟩
        = Except.ok (s2, ds2) ∧
      (∃ out, readRef s2 ds2.countRef = some out ∧
        ∀ row ∈ out.rows, rowTotal row = 10000) ∧
      readRef s2 (⟨0, 1⟩ : DState).countRef = some dfCpmCount :=
  cpm_normalizer_spec [dfCpmCount, dfCpmCoord] ⟨0, 1⟩ dfCpmCount dfCpmCoord
    rfl rfl rfl rfl rfl (by decide)
    (by intro row hrow; fin_cases hrow <;> norm_num [rowTotal])

/-! ## The pipeline entry point

Embedding of `run(dataset, k, n_svgs, n_svg_clusters, cores)` from
`svgbit/run.py`: `acquire_weight`, `acquire_hotspot`, `acquire_density`,
`find_clusters` in order.  Each stage only rebinds dataset attributes to
freshly built frames — no stage writes through the expression or
coordinate references — so the heap passes through unchanged; the derived
results are returned as plain values.

External pieces: the KNN builder is the external `libpysal.weights.KNN`
(modelled from the spec, below); the per-gene statistic is the abstracted
`moranKernel` of the hotspot section; the float `np.log` is abstracted as
`negLog`; the `svgbit.core.cluster` module called by `find_clusters` is
not present in the repository sources, so the stage is taken as an
arbitrary pure function `clusterKernel` of the hotspot matrix and AI
values, which is faithful for the frame property because `find_clusters`
receives only derived frames and rebinds only dataset attributes. -/

/-- Squared Euclidean distance in the plane. -/
def sqDist (a b : ℚ × ℚ) : ℚ := (a.1 - b.1) ^ 2 + (a.2 - b.2) ^ 2

/-- The (X, Y) pair of a coordinate row (NaN read as 0). -/
def rowToCoord (r : List (Option ℚ)) : ℚ × ℚ :=
  ((r.getD 0 none).getD 0, (r.getD 1 none).getD 0)

/-- Modelled from the spec: the external `libpysal.weights.KNN` builds,
for each spot, the list of its k nearest other spots by Euclidean
distance, ties broken by ascending spot index (the stable sort keeps the
ascending-index enumeration order among equal distances). -/
def knnNeighbors (coords : List (ℚ × ℚ)) (k : ℕ) : List (List ℕ) :=
  (List.range coords.length).map (fun i =>
    (sortListBy (fun a b => decide
        (sqDist (coords.getD i (0, 0)) (coords.getD a (0, 0))
          ≤ sqDist (coords.getD i (0, 0)) (coords.getD b (0, 0))))
      ((List.range coords.length).filter (fun j => j != i))).take k)

/-- `pysal_to_pandas(W)`: the dense 0/1 weight matrix, transposed — the
entry at row j, column i is 1 exactly when j is a neighbor of i. -/
def pysalToPandas (w : List (List ℕ)) (n : ℕ) : List (List ℕ) :=
  (List.range n).map (fun j => (List.range n).map (fun i =>
    if (w.getD i []).contains j then 1 else 0))

/-- Column `g` of a DataFrame, as a value list. -/
def columnOf (df : DF) (g : ℕ) : List (Option ℚ) :=
  df.rows.map (fun r => r.getD g none)

/-- The derived results accumulated on the dataset by a full run. -/
structure PipelineOut where
  hot : List (List ℕ)
  localI : List (List ℚ)
  localP : List (List ℚ)
  ai : List ℚ
  di : List (List ℚ)
  svgCluster : List (ℕ × ℕ)
  spotType : List (ℕ × ℕ)

/-- Embedding of `run`: build the KNN weight from the coordinate frame,
run the hotspot stage over the gene columns, build
`weight_df = -log(local_moran_p)` and the density results over the
converted knn matrix, and hand the hotspot matrix and AI values to the
clustering stage.  The store passes through untouched: every stage builds
new frames and rebinds attributes only. -/
def runPipeline (s0 : Store) (ds : DState) (k : ℕ)
    (moranKernel : List (Option ℚ) → List (List ℕ)
      → Except String (List ℚ × List ℕ × List ℚ))
    (negLog : ℚ → ℚ)
    (clusterKernel : List (List ℕ) → List ℚ → ℕ → ℕ
      → (List (ℕ × ℕ) × List (ℕ × ℕ)))
    (nSvgs nClusters : ℕ) : Except String (Store × DState × PipelineOut) :=
  match readRef s0 ds.countRef, readRef s0 ds.coordRef with
  | some cdf, some ddf =>
    let w := knnNeighbors (ddf.rows.map rowToCoord) k
    match localMoranStage (fun g => moranKernel (columnOf cdf g) w)
        (List.range cdf.cols.length) with
    | Except.error e => Except.error e
    | Except.ok (hot, iv, pv) =>
      let knnM := pysalToPandas w ddf.rows.length
      let wdf := pv.map (fun col => col.map negLog)
      let ai := (hot.zip wdf).map (fun p => aiVal p.1 p.2 knnM)
      let di := (hot.zip wdf).map (fun p => diColumn p.1 p.2 knnM)
      let cres := clusterKernel hot ai nSvgs nClusters
      Except.ok (s0, ds, ⟨hot, iv, pv, ai, di, cres.1, cres.2⟩)
  | _, _ => Except.error "invalid DataFrame reference"

section PipelineProofs

private lemma runPipeline_store_eq (s0 : Store) (ds : DState) (k : ℕ)
    (moranKernel : List (Option ℚ) → List (List ℕ)
      → Except String (List ℚ × List ℕ × List ℚ))
    (negLog : ℚ → ℚ)
    (clusterKernel : List (List ℕ) → List ℚ → ℕ → ℕ
      → (List (ℕ × ℕ) × List (ℕ × ℕ)))
    (nSvgs nClusters : ℕ) (s2 : Store) (ds2 : DState) (out : PipelineOut)
    (h : runPipeline s0 ds k moranKernel negLog clusterKernel nSvgs nClusters
      = Except.ok (s2, ds2, out)) : s2 = s0 := by
  unfold runPipeline at h
  cases hc : readRef s0 ds.countRef with
  | none => rw [hc] at h; cases h
  | some cdf =>
    cases hd : readRef s0 ds.coordRef with
    | none => rw [hc, hd] at h; cases h
    | some ddf =>
      rw [hc, hd] at h
      replace h : (match localMoranStage
            (fun g => moranKernel (columnOf cdf g)
              (knnNeighbors (ddf.rows.map rowToCoord) k))
            (List.range cdf.cols.length) with
          | Except.error e => Except.error e
          | Except.ok (hot, iv, pv) =>
            Except.ok (s0, ds,
              (⟨hot, iv, pv,
                ((hot.zip (pv.map (fun col => col.map negLog))).map
                  (fun p => aiVal p.1 p.2
                    (pysalToPandas (knnNeighbors (ddf.rows.map rowToCoord) k)
                      ddf.rows.length))),
                ((hot.zip (pv.map (fun col => col.map negLog))).map
                  (fun p => diColumn p.1 p.2
                    (pysalToPandas (knnNeighbors (ddf.rows.map rowToCoord) k)
                      ddf.rows.length))),
                (clusterKernel hot
                  ((hot.zip (pv.map (fun col => col.map negLog))).map
                    (fun p => aiVal p.1 p.2
                      (pysalToPandas (knnNeighbors (ddf.rows.map rowToCoord) k)
                        ddf.rows.length))) nSvgs nClusters).1,
                (clusterKernel hot
                  ((hot.zip (pv.map (fun col => col.map negLog))).map
                    (fun p => aiVal p.1 p.2
                      (pysalToPandas (knnNeighbors (ddf.rows.map rowToCoord) k)
                        ddf.rows.length))) nSvgs nClusters).2⟩ : PipelineOut))
          : Except String (Store × DState × PipelineOut))
          = Except.ok (s2, ds2, out) := h
      cases hm : localMoranStage
          (fun g => moranKernel (columnOf cdf g)
            (knnNeighbors (ddf.rows.map rowToCoord) k))
          (List.range cdf.cols.length) with
      | error e => rw [hm] at h; cases h
      | ok res =>
        obtain ⟨hot, iv, pv⟩ := res
        rw [hm] at h
        simp only [Except.ok.injEq, Prod.mk.injEq] at h
        exact h.1.symm

end PipelineProofs

/-- C8.  Constructing a dataset from caller-owned expression and
coordinate frames and then running the full pipeline leaves both caller
heap cells exactly as they were: the constructor deepcopies its inputs
and every stage of `run` only rebinds dataset attributes to new frames.
Holds for every statistic kernel, log function and clustering stage. -/
theorem run_preserves_caller_inputs (s0 : Store) (cR dR : ℕ)
    (k nSvgs nClusters : ℕ)
    (moranKernel : List (Option ℚ) → List (List ℕ)
      → Except String (List ℚ × List ℕ × List ℚ))
    (negLog : ℚ → ℚ)
    (clusterKernel : List (List ℕ) → List ℚ → ℕ → ℕ
      → (List (ℕ × ℕ) × List (ℕ × ℕ)))
    (s1 : Store) (ds : DState) (s2 : Store) (ds2 : DState) (out : PipelineOut)
    (hcr : cR < s0.length) (hdr : dR < s0.length)
    (h1 : construct s0 cR dR true true true = Except.ok (s1, ds))
    (h2 : runPipeline s1 ds k moranKernel negLog clusterKernel nSvgs nClusters
      = Except.ok (s2, ds2, out)) :
    readRef s2 cR = readRef s0 cR ∧ readRef s2 dR = readRef s0 dR := by
  have hs2 : s2 = s1 := runPipeline_store_eq s1 ds k moranKernel negLog
    clusterKernel nSvgs nClusters s2 ds2 out h2
  have hcv : ∃ cdf0, readRef s0 cR = some cdf0 := by
    unfold readRef
    exact ⟨s0[cR], List.getElem?_eq_getElem hcr⟩
  have hdv : ∃ ddf0, readRef s0 dR = some ddf0 := by
    unfold readRef
    exact ⟨s0[dR], List.getElem?_eq_getElem hdr⟩
  obtain ⟨cdf0, hr⟩ := hcv
  obtain ⟨ddf0, hd⟩ := hdv
  have hext := (construct_ok_full s0 cR dR true true true cdf0 ddf0 s1 ds
    hr hd h1).2
  rw [hs2]
  exact ⟨hext.2 cR hcr, hext.2 dR hdr⟩

/-- Caller expression frame for the run witness. -/
def dfRunCount : DF := ⟨[1, 2], ["g"], [[some 1], [some 2]], false⟩

/-- Caller coordinate frame for the run witness. -/
def dfRunCoord : DF := ⟨[1, 2], ["a", "b"], [[some 0, some 0], [some 1, some 1]], false⟩

/-- A statistic kernel for the run witness: p = 1 and quadrant 4 at both
spots, so no hotspot is called and the degenerate guard does not fire. -/
def demoRunKernel : List (Option ℚ) → List (List ℕ)
    → Except String (List ℚ × List ℕ × List ℚ) :=
  fun _ _ => Except.ok ([1, 1], [4, 4], [0, 0])

/-- The dataset constructed from the run-witness frames. -/
def runC8Construct : Store × DState :=
  ((construct [dfRunCount, dfRunCoord] 0 1 true true true).toOption).getD
    ([], ⟨0, 0⟩)

/-- The store, dataset and derived results of the witness run. -/
def runC8Result : Store × DState × PipelineOut :=
  ((runPipeline runC8Construct.1 runC8Construct.2 1 demoRunKernel
      (fun x => 0 - x) (fun _ _ _ _ => ([], [])) 1 1).toOption).getD
    ([], ⟨0, 0⟩, ⟨[], [], [], [], [], [], []⟩)

private lemma except_ok_of_isOk {α : Type} (e : Except String α) (d : α)
    (h : e.isOk = true) : e = Except.ok (e.toOption.getD d) := by
  cases e with
  | ok v => rfl
  | error err => cases h

private lemma runC8_isOk :
    (runPipeline runC8Construct.1 runC8Construct.2 1 demoRunKernel
      (fun x => 0 - x) (fun _ _ _ _ => ([], [])) 1 1).isOk = true := by
  have hp : ((1:ℚ) < 1/20) = False := by norm_num
  simp [runPipeline, runC8Construct, construct, constructSortBlock,
    constructFinish, readRef, writeRef, reindexDF, sortIndex, insertPair,
    fillna0, hasDupCols, renameDup, renameDupAux, dfRunCount, dfRunCoord,
    localMoranStage, exceptMapM, localMoranGene, demoRunKernel,
    localMoranHotspot, guardHotspot, concatSeries, columnOf, hp,
    Except.isOk, Except.toBool, Except.toOption, Option.getD, List.lookup]

/-- Witness for `run_preserves_caller_inputs` on the concrete dataset. -/
theorem run_preserves_caller_inputs_witness :
    readRef runC8Result.1 0 = readRef [dfRunCount, dfRunCoord] 0 ∧
      readRef runC8Result.1 1 = readRef [dfRunCount, dfRunCoord] 1 :=
  run_preserves_caller_inputs [dfRunCount, dfRunCoord] 0 1 1 1 1
    demoRunKernel (fun x => 0 - x) (fun _ _ _ _ => ([], []))
    runC8Construct.1 runC8Construct.2 runC8Result.1 runC8Result.2.1
    runC8Result.2.2 (by decide) (by decide) (by rfl)
    (except_ok_of_isOk _ _ runC8_isOk)

end Svgbit
